import Mathlib

/-!
Shallow embedding of the watchf event-processing pipeline
(src/watchservice.go, src/filter.go, src/executor.go, src/config.go).

Conventions:
* An fsnotify `FileEvent` is a path plus one primary kind bit among
  create / modify / delete / rename / attrib.  The go.exp/fsnotify
  predicate methods are embedded below; note that in that library
  `IsModify` also answers true on a metadata-only (attrib) event, which
  is why the Go code tests `IsAttrib` before `IsModify`.
* Go maps are embedded as functions (`String → Bool` for key-presence
  maps, `String → Option FileEntry` for the fingerprint cache); the
  range-and-delete purge loop of `syncWatchersAndCaches` is embedded by
  its pointwise effect.
* Filesystem and clock reads are passed in explicitly as oracle values.
* `os.PathSeparator` is embedded as "/".
-/

inductive EventKind where
  | create
  | modify
  | delete
  | rename
  | attrib
  deriving DecidableEq, Repr

structure FileEvent where
  name : String
  kind : EventKind
  deriving DecidableEq, Repr

/- go.exp/fsnotify FileEvent predicate methods (single primary bit). -/

def FileEvent.isCreate (e : FileEvent) : Bool := e.kind = EventKind.create

def FileEvent.isModify (e : FileEvent) : Bool :=
  e.kind = EventKind.modify || e.kind = EventKind.attrib

def FileEvent.isAttrib (e : FileEvent) : Bool := e.kind = EventKind.attrib

def FileEvent.isDelete (e : FileEvent) : Bool := e.kind = EventKind.delete

def FileEvent.isRename (e : FileEvent) : Bool := e.kind = EventKind.rename

/- watchservice.go getEventType: switch over the predicates, in source
order, starting from the empty string. -/

def getEventType (evt : FileEvent) : String :=
  if evt.isCreate then "ENTRY_CREATE"
  else if evt.isModify then "ENTRY_MODIFY"
  else if evt.isDelete then "ENTRY_DELETE"
  else if evt.isRename then "ENTRY_RENAME"
  else ""

/- Go strings.Replace(s, old, new, -1): replace every non-overlapping
occurrence of `old`, scanning left to right.  Embedded over character
lists with a fuel argument (fuel := length of the subject suffices for a
non-empty `old`, the only case the program uses: the tokens are "%f" and
"%t"). -/

def goReplaceAux (old new : List Char) : Nat → List Char → List Char
  | 0, s => s
  | _ + 1, [] => []
  | fuel + 1, c :: rest =>
    if old.isPrefixOf (c :: rest) then
      new ++ goReplaceAux old new fuel (List.drop old.length (c :: rest))
    else
      c :: goReplaceAux old new fuel rest

def goReplace (s old new : String) : String :=
  String.mk (goReplaceAux old.data new.data s.data.length s.data)

/- Go strings.Split(s, " "): split around every single space, keeping
empty fields. -/

def splitOnChar (sep : Char) : List Char → List (List Char)
  | [] => [[]]
  | c :: rest =>
    match splitOnChar sep rest with
    | [] => [[]]
    | grp :: groups =>
        if c = sep then [] :: grp :: groups else (c :: grp) :: groups

def goSplitSpace (s : String) : List String :=
  (splitOnChar ' ' s.data).map String.mk

/- executor.go -/

def VarFilename : String := "%f"

def VarEventType : String := "%t"

def evaluateVariables (command : String) (evt : FileEvent) : String :=
  goReplace (goReplace command VarFilename evt.name) VarEventType (getEventType evt)

/- The argv that execute hands to exec.Command: the whitespace split of
the substituted command (for a single field, exec.Command(args[0]) gives
the same one-element argv). -/

def executedWords (command : String) (evt : FileEvent) : List String :=
  goSplitSpace (evaluateVariables command evt)

/- Spec-side name for the classified type of each admissible kind, used
to state C1. -/

def entryName : EventKind → String
  | EventKind.create => "ENTRY_CREATE"
  | EventKind.modify => "ENTRY_MODIFY"
  | EventKind.delete => "ENTRY_DELETE"
  | EventKind.rename => "ENTRY_RENAME"
  | EventKind.attrib => ""

/- filter.go FileEntry: per-path cached size (int64) and adler32 sum
(uint32); sizes as Int, sums as Nat, compared only for equality. -/

structure FileEntry where
  size : Int
  hash : Nat
  deriving DecidableEq, Repr

/- Go strings.ToLower, embedded character-wise. -/

def goToLower (s : String) : String := String.mk (s.data.map Char.toLower)

/- Go strings.HasPrefix(s, pre). -/

def goStartsWith (s pre : String) : Bool := pre.data.isPrefixOf s.data

/- watchservice.go validateWatchFlags.  The watched-events map is
embedded by key presence (String → Bool); an error return is `none`. -/

def validEventNames : List String := ["create", "delete", "modify", "rename"]

def validateWatchFlags (events : List String) : Option (String → Bool) :=
  if events.isEmpty then none
  else if events.any fun e =>
      decide (goToLower e ∉ validEventNames) && decide (goToLower e ≠ "all") then none
  else if events.any fun e => goToLower e = "all" then
    some fun k => decide (k ∈ validEventNames)
  else
    some fun k =>
      decide (k ∈ validEventNames) && events.any fun e => goToLower e = k

/- filter.go checkEventType: Go switch over the predicates in source
order; the empty IsAttrib arm leaves matched = false. -/

def checkEventType (watchedEvents : String → Bool) (evt : FileEvent) : Bool :=
  if evt.isCreate then watchedEvents "create"
  else if evt.isAttrib then false
  else if evt.isModify then watchedEvents "modify"
  else if evt.isDelete then watchedEvents "delete"
  else if evt.isRename then watchedEvents "rename"
  else false

/- filter.go checkPatternMatching: the compiled regular expression is
external library state, embedded as its match predicate on the full
event path. -/

def checkPatternMatching (pattern : String → Bool) (evt : FileEvent) : Bool :=
  pattern evt.name

/- filter.go checkExecInterval: times as integer nanosecond counts. -/

def checkExecInterval (lastExec interval now : Int) : Bool :=
  if interval = 0 then true
  else
    let nextExec := lastExec + interval
    let delta := now - nextExec
    delta > 0

/- filter.go constants. -/

def FileCloseCheckThreshold : Nat := 2

/- filter.go waitForFileClose: polls getFileSize until the size is
unchanged for FileCloseCheckThreshold consecutive polls; a failed read
returns that error at once.  The oracle `sizes i` is the result of the
i-th getFileSize call (`none` = error).  The Go loop has no bound; the
embedding indexes it by fuel, `WaitResult.running` meaning the loop has
not returned within that many polls. -/

inductive WaitResult where
  | ok
  | err
  | running
  deriving DecidableEq, Repr

def waitForFileCloseAux (sizes : Nat → Option Int) :
    Nat → Int → Nat → Nat → WaitResult
  | 0, _, _, _ => WaitResult.running
  | fuel + 1, lastSize, counter, i =>
    match sizes i with
    | none => WaitResult.err
    | some currentSize =>
      if lastSize = currentSize then
        if counter + 1 ≥ FileCloseCheckThreshold then WaitResult.ok
        else waitForFileCloseAux sizes fuel currentSize (counter + 1) (i + 1)
      else waitForFileCloseAux sizes fuel currentSize 0 (i + 1)

def waitForFileClose (sizes : Nat → Option Int) (fuel : Nat) : WaitResult :=
  waitForFileCloseAux sizes fuel 0 0 0

/- filter.go checkFileContentChanged.  The oracle records the outcome of
the waitForFileClose call and of the (at most one) getFileSize and
getContentHash calls that follow it; `none` = I/O error.  The entries
map holds pointers in Go, and cachedEntry.size is written in place
before the hash read, so the embedding threads the updated map through
each step and returns it alongside the boolean. -/

structure DebounceObs where
  closeOk : Bool
  sizeRead : Option Int
  hashRead : Option Nat
  deriving Repr

def checkFileContentChanged (entries : String → Option FileEntry) (path : String)
    (obs : DebounceObs) : Bool × (String → Option FileEntry) :=
  if obs.closeOk = false then (false, entries)
  else
    match entries path with
    | none =>
      match obs.sizeRead with
      | none => (false, entries)
      | some contentSize =>
        match obs.hashRead with
        | none => (false, entries)
        | some sum =>
          (true, fun p => if p = path then some ⟨contentSize, sum⟩ else entries p)
    | some cachedEntry =>
      match obs.sizeRead with
      | none => (false, entries)
      | some contentSize =>
        let sizeChanged := cachedEntry.size ≠ contentSize
        let cached1 :=
          if cachedEntry.size ≠ contentSize then
            { cachedEntry with size := contentSize }
          else cachedEntry
        let entries1 : String → Option FileEntry :=
          fun p => if p = path then some cached1 else entries p
        match obs.hashRead with
        | none => (false, entries1)
        | some contentHash =>
          let hashChanged := cached1.hash ≠ contentHash
          let cached2 :=
            if cached1.hash ≠ contentHash then
              { cached1 with hash := contentHash }
            else cached1
          let entries2 : String → Option FileEntry :=
            fun p => if p = path then some cached2 else entries1 p
          (sizeChanged || hashChanged, entries2)

/- watchservice.go WatchService mutable state: dirs (map[string]bool by
key presence), entries (fingerprint cache), the set of paths currently
registered with the fsnotify watcher (Watch / RemoveWatch calls), and
the worker's lastExec clock. -/

structure WState where
  dirs : String → Bool
  entries : String → Option FileEntry
  registered : String → Bool
  lastExec : Int

def WState.isDir (s : WState) (path : String) : Bool := s.dirs path

def pathSeparator : String := "/"

/- watchservice.go syncWatchersAndCaches.  `statResult` is the os.Stat
outcome for the create arm: `none` = error, `some b` with b = IsDir().
The entries purge loop (range + delete of every key with the directory
prefix) is embedded by its pointwise effect on the map. -/

def syncWatchersAndCaches (s : WState) (evt : FileEvent)
    (statResult : Option Bool) : WState :=
  let path := evt.name
  if evt.isCreate then
    match statResult with
    | none => s
    | some isDirStat =>
      if isDirStat then
        { s with
          dirs := fun p => if p = path then true else s.dirs p
          registered := fun p => if p = path then true else s.registered p }
      else s
  else if evt.isRename || evt.isDelete then
    if s.isDir path then
      let dirPath := path ++ pathSeparator
      { s with
        dirs := fun p => if p = path then false else s.dirs p
        registered := fun p => if p = path then false else s.registered p
        entries := fun p => if goStartsWith p dirPath then none else s.entries p }
    else
      { s with entries := fun p => if p = path then none else s.entries p }
  else s

/- watchservice.go watchFolders: with Recursive set, filepath.Walk
registers every directory of the tree (dirs keyed by "./" + path, Watch
on the bare path); otherwise a single Watch on the root, dirs untouched.
`tree` is the list of directories the walk reaches successfully. -/

def watchFolders (recursive : Bool) (root : String) (tree : List String)
    (s : WState) : WState :=
  if recursive then
    tree.foldl
      (fun st path =>
        { st with
          dirs := fun p => if p = "./" ++ path then true else st.dirs p
          registered := fun p => if p = path then true else st.registered p })
      s
  else
    { s with registered := fun p => if p = root then true else s.registered p }

/- Configuration visible to the worker: the key-presence map built by
validateWatchFlags, the compiled include pattern's match predicate, and
the minimum interval. -/

structure WorkerConfig where
  watchFlags : String → Bool
  pattern : String → Bool
  interval : Int

/- Per-event oracle for the worker body: the stat result consumed by
syncWatchersAndCaches, the time.Now() read consumed by
checkExecInterval, the time.Now() read assigned to lastExec before run,
and the debouncer's I/O outcomes. -/

structure EventOracle where
  statResult : Option Bool
  now : Int
  nowExec : Int
  debounce : DebounceObs

/- Pipeline stages, recorded in the order the worker consults them. -/

inductive Stage where
  | sync
  | pattern
  | classify
  | throttle
  | debounce
  | run
  deriving DecidableEq, Repr

/- watchservice.go startWorker, one iteration of the event loop: sync
the watchers and caches, then the nested ifs exactly as in the source.
Returns the updated state and the list of stages consulted, in
consultation order. -/

def processEvent (cfg : WorkerConfig) (s : WState) (evt : FileEvent)
    (io : EventOracle) : WState × List Stage :=
  let s1 := syncWatchersAndCaches s evt io.statResult
  if checkPatternMatching cfg.pattern evt then
    if checkEventType cfg.watchFlags evt then
      if checkExecInterval s1.lastExec cfg.interval io.now then
        if s1.isDir evt.name then
          ({ s1 with lastExec := io.nowExec },
           [Stage.sync, Stage.pattern, Stage.classify, Stage.throttle, Stage.run])
        else
          if evt.isModify then
            let dbr := checkFileContentChanged s1.entries evt.name io.debounce
            let s2 := { s1 with entries := dbr.2 }
            if dbr.1 = false then
              (s2, [Stage.sync, Stage.pattern, Stage.classify, Stage.throttle,
                    Stage.debounce])
            else
              ({ s2 with lastExec := io.nowExec },
               [Stage.sync, Stage.pattern, Stage.classify, Stage.throttle,
                Stage.debounce, Stage.run])
          else
            ({ s1 with lastExec := io.nowExec },
             [Stage.sync, Stage.pattern, Stage.classify, Stage.throttle, Stage.run])
      else
        (s1, [Stage.sync, Stage.pattern, Stage.classify, Stage.throttle])
    else
      (s1, [Stage.sync, Stage.pattern, Stage.classify])
  else
    (s1, [Stage.sync, Stage.pattern])

/-! Spec-side definitions used to state the claims. -/

/- The lower-case mask key each admissible event kind is looked up
under. -/

def eventKindName : EventKind → String
  | EventKind.create => "create"
  | EventKind.modify => "modify"
  | EventKind.delete => "delete"
  | EventKind.rename => "rename"
  | EventKind.attrib => "attrib"

/- Index of the first occurrence of a stage in a consultation trace. -/

def stagePos : List Stage → Stage → Option Nat
  | [], _ => none
  | st :: rest, a =>
    if st = a then some 0 else (stagePos rest a).map (· + 1)

/- Stage a consulted strictly before stage b in the trace. -/

def consultedBefore (t : List Stage) (a b : Stage) : Prop :=
  ∃ i j, stagePos t a = some i ∧ stagePos t b = some j ∧ i < j

/- The lastSize value the poll-loop body compares the j-th read against:
the initial int64 zero value for the first poll, the previous read
afterwards. -/

def pollValue (sizes : Nat → Option Int) : Nat → Option Int
  | 0 => some 0
  | j + 1 => sizes j

/- Poll j succeeded and observed a size equal to the loop's comparison
value for that poll. -/

def unchangedPoll (sizes : Nat → Option Int) (j : Nat) : Prop :=
  ∃ v, sizes j = some v ∧ pollValue sizes j = some v

/- The loop state reaching counter = FileCloseCheckThreshold at poll i:
all reads up to i succeeded and polls i - 1 and i were both unchanged in
the loop's sense. -/

def stabilizesAt (sizes : Nat → Option Int) (i : Nat) : Prop :=
  1 ≤ i ∧ (∀ j, j ≤ i → (sizes j).isSome) ∧
    unchangedPoll sizes i ∧ unchangedPoll sizes (i - 1)

/- The claim's stated stabilization condition: the read sequence
eventually contains two consecutive polls whose size is unchanged from
the respective previous read. -/

def specTwoConsecutiveUnchanged (sizes : Nat → Option Int) : Prop :=
  ∃ i v, sizes i = some v ∧ sizes (i + 1) = some v ∧ sizes (i + 2) = some v

/- Loop invariant of waitForFileCloseAux at the call consuming read i
with state (lastSize, counter). -/

def waitInv (sizes : Nat → Option Int) (i : Nat) (last : Int) (counter : Nat) : Prop :=
  pollValue sizes i = some last ∧
  (counter = 1 ∨ counter = 0) ∧
  (counter = 1 ↔ (1 ≤ i ∧ unchangedPoll sizes (i - 1))) ∧
  (∀ j, j < i → (sizes j).isSome)

/- Size-read sequence refuting the claimed iff: the first two reads are
0 (the loop's initial comparison value), strictly growing afterwards. -/

def c8CounterSizes : Nat → Option Int :=
  fun i => if i ≤ 1 then some 0 else some (i : Int)

/- Concrete worker input exhibiting the consultation order. -/

def cfgC2 : WorkerConfig := ⟨fun _ => true, fun _ => true, 0⟩

def stateC2 : WState := ⟨fun _ => false, fun _ => none, fun _ => false, 0⟩

def evtC2 : FileEvent := ⟨"/w/a.txt", EventKind.modify⟩

def ioC2 : EventOracle := ⟨none, 0, 0, ⟨true, some 1, some 2⟩⟩

/-! Theorems. -/

/-- C1 counterexample: for the template "echo %f %t" and a modify event on
"/tmp/a.txt", the executed command is "echo /tmp/a.txt ENTRY_MODIFY", not the
claimed "echo /tmp/a.txt modify": getEventType yields the ENTRY_-prefixed
names, not "create" / "modify" / "delete" / "rename". -/
theorem c1_counterexample :
    executedWords "echo %f %t" ⟨"/tmp/a.txt", EventKind.modify⟩ ≠
      ["echo", "/tmp/a.txt", "modify"] ∧
    executedWords "echo %f %t" ⟨"/tmp/a.txt", EventKind.modify⟩ =
      ["echo", "/tmp/a.txt", "ENTRY_MODIFY"] := by
  constructor
  · decide
  · decide

/-- C1 amended: for every command template and every event of one of the four
routed kinds, the executed argv is the whitespace split of the template with
every "%f" replaced by the event path and every "%t" replaced by the
classified type's name, where that name is "ENTRY_CREATE" / "ENTRY_MODIFY" /
"ENTRY_DELETE" / "ENTRY_RENAME"; in particular the scenario command is
"echo /tmp/a.txt ENTRY_MODIFY". -/
theorem c1_substitution (command : String) (evt : FileEvent)
    (hk : evt.kind ≠ EventKind.attrib) :
    executedWords command evt =
      goSplitSpace (goReplace (goReplace command VarFilename evt.name)
        VarEventType (entryName evt.kind)) ∧
    getEventType evt = entryName evt.kind ∧
    executedWords "echo %f %t" ⟨"/tmp/a.txt", EventKind.modify⟩ =
      ["echo", "/tmp/a.txt", "ENTRY_MODIFY"] := by
  obtain ⟨name, kind⟩ := evt
  have h : getEventType ⟨name, kind⟩ = entryName kind := by
    cases kind <;>
      simp_all [getEventType, entryName, FileEvent.isCreate, FileEvent.isModify,
        FileEvent.isAttrib, FileEvent.isDelete, FileEvent.isRename]
  refine ⟨?_, h, by decide⟩
  simp [executedWords, evaluateVariables, h]

/-- C1 witness: the scenario instance of the amended substitution law. -/
theorem c1_substitution_witness :
    executedWords "echo %f %t" ⟨"/tmp/a.txt", EventKind.modify⟩ =
      goSplitSpace (goReplace (goReplace "echo %f %t" VarFilename "/tmp/a.txt")
        VarEventType (entryName EventKind.modify)) :=
  (c1_substitution "echo %f %t" ⟨"/tmp/a.txt", EventKind.modify⟩ (by decide)).1

/-- C3: for every mask validateWatchFlags accepts and every raw event, the
classifier admits an event of one of the four routed kinds iff the kind's
lower-case name is a key of the mask, and an attrib (metadata-only) event is
never admitted, whatever the mask — including the mask built from "all". -/
theorem c3_classifier (events : List String) (M : String → Bool)
    (_hM : validateWatchFlags events = some M) (evt : FileEvent) :
    (evt.kind ≠ EventKind.attrib →
      (checkEventType M evt = true ↔ M (eventKindName evt.kind) = true)) ∧
    (evt.kind = EventKind.attrib → checkEventType M evt = false) := by
  obtain ⟨name, kind⟩ := evt
  cases kind <;>
    simp [checkEventType, eventKindName, FileEvent.isCreate, FileEvent.isModify,
      FileEvent.isAttrib, FileEvent.isDelete, FileEvent.isRename]

/-- C3 witness: with the validated "all" mask, an attrib event is dropped. -/
theorem c3_classifier_witness :
    checkEventType (fun k => decide (k ∈ validEventNames))
      ⟨"/tmp/x", EventKind.attrib⟩ = false :=
  (c3_classifier ["all"] (fun k => decide (k ∈ validEventNames)) rfl
    ⟨"/tmp/x", EventKind.attrib⟩).2 rfl

/-- C4: on a rename or delete event whose target path is a member of the
watch set, the sync step removes exactly that path from the watch set, purges
exactly the fingerprint-cache entries whose path has the directory path
followed by the path separator as a prefix, and leaves every other watch-set
member and every other cache entry unchanged. -/
theorem c4_sync_purge (s : WState) (evt : FileEvent) (stat : Option Bool)
    (hk : evt.kind = EventKind.rename ∨ evt.kind = EventKind.delete)
    (hmem : s.dirs evt.name = true) :
    (syncWatchersAndCaches s evt stat).dirs evt.name = false ∧
    (∀ q, q ≠ evt.name → (syncWatchersAndCaches s evt stat).dirs q = s.dirs q) ∧
    (∀ p, goStartsWith p (evt.name ++ pathSeparator) = true →
      (syncWatchersAndCaches s evt stat).entries p = none) ∧
    (∀ p, goStartsWith p (evt.name ++ pathSeparator) = false →
      (syncWatchersAndCaches s evt stat).entries p = s.entries p) := by
  rcases hk with hk | hk <;>
    simp [syncWatchersAndCaches, WState.isDir, FileEvent.isCreate,
      FileEvent.isRename, FileEvent.isDelete, hk, hmem] <;>
    refine ⟨fun q hq => by simp [hq], fun p hp => by simp [hp], fun p hp => by simp [hp]⟩

/-- C4 witness: deleting watched directory "/d" drops it from the set and
purges the entry under it. -/
theorem c4_sync_purge_witness :
    (syncWatchersAndCaches
        ⟨fun p => p == "/d", fun _ => some ⟨1, 2⟩, fun _ => false, 0⟩
        ⟨"/d", EventKind.delete⟩ none).dirs "/d" = false ∧
    (syncWatchersAndCaches
        ⟨fun p => p == "/d", fun _ => some ⟨1, 2⟩, fun _ => false, 0⟩
        ⟨"/d", EventKind.delete⟩ none).entries "/d/x" = none := by
  have h := c4_sync_purge
    ⟨fun p => p == "/d", fun _ => some ⟨1, 2⟩, fun _ => false, 0⟩
    ⟨"/d", EventKind.delete⟩ none (Or.inr rfl) (by decide)
  exact ⟨h.1, h.2.2.1 "/d/x" (by decide)⟩

/-- C5: when every read succeeds and size and checksum are identical across
two consecutive observations of a path, the debouncer reports changed on the
first observation, inserting the cache entry, and unchanged on the second,
leaving the cache pointwise as it was. -/
theorem c5_debounce_idempotent (entries : String → Option FileEntry)
    (path : String) (sz : Int) (sum : Nat) (habs : entries path = none) :
    (checkFileContentChanged entries path ⟨true, some sz, some sum⟩).1 = true ∧
    (checkFileContentChanged entries path ⟨true, some sz, some sum⟩).2 path =
      some ⟨sz, sum⟩ ∧
    (checkFileContentChanged
        (checkFileContentChanged entries path ⟨true, some sz, some sum⟩).2 path
        ⟨true, some sz, some sum⟩).1 = false ∧
    (∀ p, (checkFileContentChanged
        (checkFileContentChanged entries path ⟨true, some sz, some sum⟩).2 path
        ⟨true, some sz, some sum⟩).2 p =
      (checkFileContentChanged entries path ⟨true, some sz, some sum⟩).2 p) := by
  have h1 : checkFileContentChanged entries path ⟨true, some sz, some sum⟩ =
      (true, fun p => if p = path then some ⟨sz, sum⟩ else entries p) := by
    simp [checkFileContentChanged, habs]
  rw [h1]
  refine ⟨rfl, by simp, ?_, ?_⟩
  · simp [checkFileContentChanged]
  · intro p
    by_cases hp : p = path <;> simp [checkFileContentChanged, hp]

/-- C5 witness: a concrete two-observation scenario. -/
theorem c5_debounce_idempotent_witness :
    (checkFileContentChanged (fun _ => none) "/tmp/f" ⟨true, some 7, some 9⟩).1 =
      true ∧
    (checkFileContentChanged
        (checkFileContentChanged (fun _ => none) "/tmp/f" ⟨true, some 7, some 9⟩).2
        "/tmp/f" ⟨true, some 7, some 9⟩).1 = false := by
  have h := c5_debounce_idempotent (fun _ => none) "/tmp/f" 7 9 rfl
  exact ⟨h.1, h.2.2.1⟩

/-- C10: with a cached entry present, a size read that differs followed by a
failing checksum read makes the debouncer report unchanged while the cached
size has already been overwritten with the new value: the error branch does
not roll the cache back. -/
theorem c10_partial_update (entries : String → Option FileEntry) (path : String)
    (s0 : Int) (h0 : Nat) (sz : Int) (hent : entries path = some ⟨s0, h0⟩)
    (hne : s0 ≠ sz) :
    (checkFileContentChanged entries path ⟨true, some sz, none⟩).1 = false ∧
    (checkFileContentChanged entries path ⟨true, some sz, none⟩).2 path =
      some ⟨sz, h0⟩ := by
  simp [checkFileContentChanged, hent, hne]

/-- C10 witness: a concrete size-then-failed-checksum scenario. -/
theorem c10_partial_update_witness :
    (checkFileContentChanged (fun _ => some ⟨3, 5⟩) "/tmp/f"
        ⟨true, some 4, none⟩).1 = false ∧
    (checkFileContentChanged (fun _ => some ⟨3, 5⟩) "/tmp/f"
        ⟨true, some 4, none⟩).2 "/tmp/f" = some ⟨4, 5⟩ :=
  c10_partial_update (fun _ => some ⟨3, 5⟩) "/tmp/f" 3 5 4 rfl (by decide)

/- Any I/O failure inside checkFileContentChanged yields false. -/

theorem checkFileContentChanged_fail (entries : String → Option FileEntry)
    (path : String) (obs : DebounceObs)
    (hfail : obs.closeOk = false ∨ obs.sizeRead = none ∨ obs.hashRead = none) :
    (checkFileContentChanged entries path obs).1 = false := by
  by_cases hc : obs.closeOk = false
  · simp [checkFileContentChanged, hc]
  · rcases hfail with h | h | h
    · exact absurd h hc
    · cases hent : entries path <;> simp [checkFileContentChanged, hc, hent, h]
    · cases hent : entries path <;> cases hsr : obs.sizeRead <;>
        simp [checkFileContentChanged, hc, hent, hsr, h]

/-- C6: for a modify event on a non-directory target, any failure of the
close-wait, size read or checksum read makes the debouncer report unchanged,
and the command runner is not invoked for that event. -/
theorem c6_fail_closed (cfg : WorkerConfig) (s : WState) (evt : FileEvent)
    (io : EventOracle) (hmod : evt.kind = EventKind.modify)
    (hdir : (syncWatchersAndCaches s evt io.statResult).isDir evt.name = false)
    (hfail : io.debounce.closeOk = false ∨ io.debounce.sizeRead = none ∨
      io.debounce.hashRead = none) :
    (checkFileContentChanged (syncWatchersAndCaches s evt io.statResult).entries
        evt.name io.debounce).1 = false ∧
    Stage.run ∉ (processEvent cfg s evt io).2 := by
  have hfc := checkFileContentChanged_fail
    (syncWatchersAndCaches s evt io.statResult).entries evt.name io.debounce hfail
  refine ⟨hfc, ?_⟩
  have hm : evt.isModify = true := by simp [FileEvent.isModify, hmod]
  by_cases h1 : checkPatternMatching cfg.pattern evt = true
  · by_cases h2 : checkEventType cfg.watchFlags evt = true
    · by_cases h3 : checkExecInterval
          (syncWatchersAndCaches s evt io.statResult).lastExec cfg.interval
          io.now = true
      · simp [processEvent, h1, h2, h3, hdir, hm, hfc]
      · simp [processEvent, h1, h2, h3]
    · simp [processEvent, h1, h2]
  · simp [processEvent, h1]

/-- C6 witness: a vanished file (failed size read) on a modify event. -/
theorem c6_fail_closed_witness :
    (checkFileContentChanged
        (syncWatchersAndCaches stateC2 ⟨"/w/a.txt", EventKind.modify⟩ none).entries
        "/w/a.txt" ⟨true, none, none⟩).1 = false ∧
    Stage.run ∉ (processEvent cfgC2 stateC2 ⟨"/w/a.txt", EventKind.modify⟩
      ⟨none, 0, 0, ⟨true, none, none⟩⟩).2 := by
  have h := c6_fail_closed cfgC2 stateC2 ⟨"/w/a.txt", EventKind.modify⟩
    ⟨none, 0, 0, ⟨true, none, none⟩⟩ rfl (by decide) (Or.inr (Or.inl rfl))
  exact h

/-- C7: an event whose path does not match the include pattern never reaches
the command runner, whatever its kind, the mask, or the content-change
outcome. -/
theorem c7_pattern_gate (cfg : WorkerConfig) (s : WState) (evt : FileEvent)
    (io : EventOracle) (hpat : checkPatternMatching cfg.pattern evt = false) :
    Stage.run ∉ (processEvent cfg s evt io).2 := by
  simp [processEvent, hpat]

/-- C7 witness: a non-matching pattern drops a create event. -/
theorem c7_pattern_gate_witness :
    Stage.run ∉ (processEvent ⟨fun _ => true, fun _ => false, 0⟩ stateC2
      ⟨"/w/a.txt", EventKind.create⟩ ioC2).2 :=
  c7_pattern_gate ⟨fun _ => true, fun _ => false, 0⟩ stateC2
    ⟨"/w/a.txt", EventKind.create⟩ ioC2 rfl

/-- C2 counterexample: for a file modify event passing all filters, the
worker consults the throttle gate at position 3 of the trace and the
debouncer only at position 4 — the debouncer is not consulted before the
throttle gate, refuting the claimed order. -/
theorem c2_counterexample :
    (processEvent cfgC2 stateC2 evtC2 ioC2).2 =
      [Stage.sync, Stage.pattern, Stage.classify, Stage.throttle,
        Stage.debounce, Stage.run] ∧
    Stage.debounce ∈ (processEvent cfgC2 stateC2 evtC2 ioC2).2 ∧
    ¬ consultedBefore (processEvent cfgC2 stateC2 evtC2 ioC2).2
        Stage.debounce Stage.throttle := by
  refine ⟨by decide, by decide, ?_⟩
  rintro ⟨i, j, hi, hj, hij⟩
  have h1 : stagePos (processEvent cfgC2 stateC2 evtC2 ioC2).2 Stage.debounce =
      some 4 := by decide
  have h2 : stagePos (processEvent cfgC2 stateC2 evtC2 ioC2).2 Stage.throttle =
      some 3 := by decide
  rw [h1] at hi
  rw [h2] at hj
  injection hi with hi
  injection hj with hj
  omega

/-- C2 amended: the worker consults the stages of each event in the order
sync, pattern filter, classifier, throttle gate, debouncer, runner; for a
file modify event the throttle gate is consulted before — not after — the
debouncer, and the debouncer is consulted only for modify events whose
target is not a watched directory after the sync step. -/
theorem c2_pipeline_order (cfg : WorkerConfig) (s : WState) (evt : FileEvent)
    (io : EventOracle) :
    (processEvent cfg s evt io).2.Sublist
      [Stage.sync, Stage.pattern, Stage.classify, Stage.throttle,
        Stage.debounce, Stage.run] ∧
    (Stage.debounce ∈ (processEvent cfg s evt io).2 →
      consultedBefore (processEvent cfg s evt io).2 Stage.throttle
        Stage.debounce ∧
      evt.isModify = true ∧
      (syncWatchersAndCaches s evt io.statResult).isDir evt.name = false) := by
  by_cases h1 : checkPatternMatching cfg.pattern evt = true
  · by_cases h2 : checkEventType cfg.watchFlags evt = true
    · by_cases h3 : checkExecInterval
          (syncWatchersAndCaches s evt io.statResult).lastExec cfg.interval
          io.now = true
      · by_cases h4 : (syncWatchersAndCaches s evt io.statResult).isDir
            evt.name = true
        · simp [processEvent, h1, h2, h3, h4]
        · by_cases h5 : evt.isModify = true
          · by_cases h6 : (checkFileContentChanged
                (syncWatchersAndCaches s evt io.statResult).entries evt.name
                io.debounce).1 = false
            · refine ⟨by simp [processEvent, h1, h2, h3, h4, h5, h6], ?_⟩
              intro _
              refine ⟨?_, h5, by simp at h4; exact h4⟩
              simp [processEvent, h1, h2, h3, h4, h5, h6]
              exact ⟨3, 4, by decide, by decide, by decide⟩
            · refine ⟨by simp [processEvent, h1, h2, h3, h4, h5, h6], ?_⟩
              intro _
              refine ⟨?_, h5, by simp at h4; exact h4⟩
              simp [processEvent, h1, h2, h3, h4, h5, h6]
              exact ⟨3, 4, by decide, by decide, by decide⟩
          · simp [processEvent, h1, h2, h3, h4, h5]
      · simp [processEvent, h1, h2, h3]
    · simp [processEvent, h1, h2]
  · simp [processEvent, h1]

/-- C2 witness: at the concrete input the throttle gate is indeed consulted
before the debouncer. -/
theorem c2_pipeline_order_witness :
    consultedBefore (processEvent cfgC2 stateC2 evtC2 ioC2).2 Stage.throttle
      Stage.debounce :=
  ((c2_pipeline_order cfgC2 stateC2 evtC2 ioC2).2 (by decide)).1

/- The bootstrap walk registers every directory it reaches and never
unregisters one. -/

theorem walkStep_registered_mono (tree : List String) (s : WState) (p : String)
    (h : s.registered p = true) :
    (tree.foldl
      (fun st path =>
        { st with
          dirs := fun q => if q = "./" ++ path then true else st.dirs q
          registered := fun q => if q = path then true else st.registered q })
      s).registered p = true := by
  induction tree generalizing s with
  | nil => exact h
  | cons a rest ih =>
    refine ih _ ?_
    by_cases hp : p = a <;> simp [hp, h]

theorem walk_registers (tree : List String) (s : WState) (d : String)
    (hd : d ∈ tree) :
    (tree.foldl
      (fun st path =>
        { st with
          dirs := fun q => if q = "./" ++ path then true else st.dirs q
          registered := fun q => if q = path then true else st.registered q })
      s).registered d = true := by
  induction tree generalizing s with
  | nil => cases hd
  | cons a rest ih =>
    rcases List.mem_cons.mp hd with hda | hdr
    · subst hda
      exact walkStep_registered_mono rest _ d (by simp)
    · exact ih _ hdr

/-- C9: a create event whose target stats as a directory is added to the
watch set and registered by the sync step, which takes no recursive flag at
all; the recursive flag only selects whether the bootstrap registers every
walked directory or just the root (leaving the dirs set untouched in the
non-recursive case). -/
theorem c9_create_dir (s : WState) (evt : FileEvent) (root : String)
    (tree : List String) (hk : evt.kind = EventKind.create) :
    ((syncWatchersAndCaches s evt (some true)).dirs evt.name = true ∧
     (syncWatchersAndCaches s evt (some true)).registered evt.name = true) ∧
    ((watchFolders false root tree s).registered root = true ∧
     (∀ p, p ≠ root → (watchFolders false root tree s).registered p =
        s.registered p) ∧
     (∀ p, (watchFolders false root tree s).dirs p = s.dirs p)) ∧
    (∀ d, d ∈ tree → (watchFolders true root tree s).registered d = true) := by
  refine ⟨?_, ⟨by simp [watchFolders], fun p hp => by simp [watchFolders, hp],
    fun p => by simp [watchFolders]⟩, fun d hd => ?_⟩
  · constructor <;> simp [syncWatchersAndCaches, FileEvent.isCreate, hk]
  · simpa [watchFolders] using walk_registers tree s d hd

/-- C9 witness: creating directory "/r/sub" while recursive is false. -/
theorem c9_create_dir_witness :
    (syncWatchersAndCaches stateC2 ⟨"/r/sub", EventKind.create⟩
        (some true)).dirs "/r/sub" = true ∧
    (watchFolders false "/r" ["a", "b"] stateC2).registered "/r" = true ∧
    (watchFolders true "/r" ["a", "b"] stateC2).registered "a" = true := by
  have h := c9_create_dir stateC2 ⟨"/r/sub", EventKind.create⟩ "/r" ["a", "b"] rfl
  exact ⟨h.1.1, h.2.1.1, h.2.2 "a" (by decide)⟩

/- Invariant of the poll loop at its entry. -/

theorem waitInv_init (sizes : Nat → Option Int) : waitInv sizes 0 0 0 := by
  refine ⟨rfl, Or.inr rfl, ?_, fun j hj => absurd hj (Nat.not_lt_zero j)⟩
  constructor
  · intro h; omega
  · rintro ⟨h1, _⟩; omega

/- Shifting the success window across one consumed poll. -/

theorem waitWindow_ok (sizes : Nat → Option Int) (i fuel : Nat)
    (hni : ¬ stabilizesAt sizes i) :
    (∃ m, i + 1 ≤ m ∧ m < (i + 1) + fuel ∧ stabilizesAt sizes m) ↔
    (∃ m, i ≤ m ∧ m < i + (fuel + 1) ∧ stabilizesAt sizes m) := by
  constructor
  · rintro ⟨m, h1, h2, h3⟩
    exact ⟨m, by omega, by omega, h3⟩
  · rintro ⟨m, h1, h2, h3⟩
    rcases Nat.eq_or_lt_of_le h1 with him | him
    · subst him
      exact absurd h3 hni
    · exact ⟨m, him, by omega, h3⟩

/- Shifting the error window across one consumed successful poll. -/

theorem waitWindow_err (sizes : Nat → Option Int) (i fuel : Nat) (cur : Int)
    (hsi : sizes i = some cur) (hni : ¬ stabilizesAt sizes i) :
    (∃ k, i + 1 ≤ k ∧ k < (i + 1) + fuel ∧ sizes k = none ∧
      ∀ m, i + 1 ≤ m → m < k → ¬ stabilizesAt sizes m) ↔
    (∃ k, i ≤ k ∧ k < i + (fuel + 1) ∧ sizes k = none ∧
      ∀ m, i ≤ m → m < k → ¬ stabilizesAt sizes m) := by
  constructor
  · rintro ⟨k, h1, h2, h3, h4⟩
    refine ⟨k, by omega, by omega, h3, ?_⟩
    intro m hm1 hm2
    rcases Nat.eq_or_lt_of_le hm1 with him | him
    · subst him
      exact hni
    · exact h4 m him hm2
  · rintro ⟨k, h1, h2, h3, h4⟩
    have hk : k ≠ i := by
      intro h
      rw [h, hsi] at h3
      exact Option.noConfusion h3
    exact ⟨k, by omega, by omega, h3, fun m hm1 hm2 => h4 m (by omega) hm2⟩

/- Characterization of the poll loop from any reachable state: it
returns ok within the fuel window iff the window holds a stabilization
point, and err iff the window holds a failed read not preceded by a
stabilization point. -/

theorem waitAuxMain (sizes : Nat → Option Int) :
    ∀ (fuel i : Nat) (last : Int) (counter : Nat),
      waitInv sizes i last counter →
      (waitForFileCloseAux sizes fuel last counter i = WaitResult.ok ↔
        ∃ m, i ≤ m ∧ m < i + fuel ∧ stabilizesAt sizes m) ∧
      (waitForFileCloseAux sizes fuel last counter i = WaitResult.err ↔
        ∃ k, i ≤ k ∧ k < i + fuel ∧ sizes k = none ∧
          ∀ m, i ≤ m → m < k → ¬ stabilizesAt sizes m) := by
  intro fuel
  induction fuel with
  | zero =>
    intro i last counter _
    constructor
    · simp only [waitForFileCloseAux]
      constructor
      · intro h
        exact WaitResult.noConfusion h
      · rintro ⟨m, h1, h2, _⟩
        omega
    · simp only [waitForFileCloseAux]
      constructor
      · intro h
        exact WaitResult.noConfusion h
      · rintro ⟨k, h1, h2, _⟩
        omega
  | succ fuel ih =>
    intro i last counter hinv
    obtain ⟨hpoll, hct01, hctiff, hsome⟩ := hinv
    have hsome1 : ∀ (cur : Int), sizes i = some cur →
        ∀ j, j < i + 1 → (sizes j).isSome := by
      intro cur hsi j hj
      rcases Nat.lt_or_ge j i with hj' | hj'
      · exact hsome j hj'
      · have hji : j = i := by omega
        subst hji
        simp [hsi]
    cases hsi : sizes i with
    | none =>
      have hstep : waitForFileCloseAux sizes (fuel + 1) last counter i =
          WaitResult.err := by
        simp [waitForFileCloseAux, hsi]
      rw [hstep]
      constructor
      · constructor
        · intro h
          exact WaitResult.noConfusion h
        · rintro ⟨m, h1, _, _, hsm, _, _⟩
          have hsi' := hsm i h1
          rw [hsi] at hsi'
          exact Bool.noConfusion hsi'
      · constructor
        · intro _
          exact ⟨i, Nat.le_refl i, by omega, hsi, fun m hm1 hm2 => by omega⟩
        · intro _
          rfl
    | some cur =>
      by_cases heq : last = cur
      · rcases hct01 with hc1 | hc0
        · subst hc1
          have hstab : stabilizesAt sizes i := by
            obtain ⟨h1i, hup⟩ := hctiff.mp rfl
            refine ⟨h1i, fun j hj => hsome1 cur hsi j (by omega), ⟨cur, hsi, ?_⟩, hup⟩
            rw [← heq]
            exact hpoll
          have hstep : waitForFileCloseAux sizes (fuel + 1) last 1 i =
              WaitResult.ok := by
            simp [waitForFileCloseAux, hsi, heq, FileCloseCheckThreshold]
          rw [hstep]
          constructor
          · constructor
            · intro _
              exact ⟨i, Nat.le_refl i, by omega, hstab⟩
            · intro _
              rfl
          · constructor
            · intro h
              exact WaitResult.noConfusion h
            · rintro ⟨k, hik, _, hkn, hall⟩
              rcases Nat.eq_or_lt_of_le hik with hki | hki
              · rw [← hki, hsi] at hkn
                exact Option.noConfusion hkn
              · exact absurd hstab (hall i (Nat.le_refl i) hki)
        · subst hc0
          have hnstabi : ¬ stabilizesAt sizes i := by
            rintro ⟨h1i, _, _, hup⟩
            have h01 : (0 : Nat) = 1 := hctiff.mpr ⟨h1i, hup⟩
            omega
          have hupi : unchangedPoll sizes i := by
            refine ⟨cur, hsi, ?_⟩
            rw [← heq]
            exact hpoll
          have hinv' : waitInv sizes (i + 1) cur 1 := by
            refine ⟨hsi, Or.inl rfl, ?_, hsome1 cur hsi⟩
            constructor
            · intro _
              exact ⟨by omega, by simpa using hupi⟩
            · intro _
              rfl
          have hstep : waitForFileCloseAux sizes (fuel + 1) last 0 i =
              waitForFileCloseAux sizes fuel cur 1 (i + 1) := by
            simp [waitForFileCloseAux, hsi, heq, FileCloseCheckThreshold]
          obtain ⟨iok, ierr⟩ := ih (i + 1) cur 1 hinv'
          rw [hstep]
          constructor
          · rw [iok]
            exact waitWindow_ok sizes i fuel hnstabi
          · rw [ierr]
            exact waitWindow_err sizes i fuel cur hsi hnstabi
      · have hnup : ¬ unchangedPoll sizes i := by
          rintro ⟨v, hv, hpv⟩
          rw [hsi] at hv
          rw [hpoll] at hpv
          injection hv with hv
          injection hpv with hpv
          exact heq (hpv.trans hv.symm)
        have hnstabi : ¬ stabilizesAt sizes i := by
          rintro ⟨_, _, hup, _⟩
          exact hnup hup
        have hinv' : waitInv sizes (i + 1) cur 0 := by
          refine ⟨hsi, Or.inr rfl, ?_, hsome1 cur hsi⟩
          constructor
          · intro h
            omega
          · rintro ⟨_, hup⟩
            exact absurd (show unchangedPoll sizes i by simpa using hup) hnup
        have hstep : waitForFileCloseAux sizes (fuel + 1) last counter i =
            waitForFileCloseAux sizes fuel cur 0 (i + 1) := by
          simp [waitForFileCloseAux, hsi, heq]
        obtain ⟨iok, ierr⟩ := ih (i + 1) cur 0 hinv'
        rw [hstep]
        constructor
        · rw [iok]
          exact waitWindow_ok sizes i fuel hnstabi
        · rw [ierr]
          exact waitWindow_err sizes i fuel cur hsi hnstabi

/-- C8 counterexample: with reads 0, 0 and then strictly growing sizes, the
poll loop terminates successfully after two polls (the first read equals the
loop's initial lastSize value 0), yet the read sequence never contains two
consecutive polls whose size is unchanged from the previous read — refuting
the claimed iff. -/
theorem c8_counterexample :
    waitForFileClose c8CounterSizes 2 = WaitResult.ok ∧
    ¬ specTwoConsecutiveUnchanged c8CounterSizes ∧
    ¬ ((∃ fuel, waitForFileClose c8CounterSizes fuel = WaitResult.ok) ↔
        specTwoConsecutiveUnchanged c8CounterSizes) := by
  have hok : waitForFileClose c8CounterSizes 2 = WaitResult.ok := by decide
  have hnspec : ¬ specTwoConsecutiveUnchanged c8CounterSizes := by
    rintro ⟨i, v, h0, h1, h2⟩
    simp only [c8CounterSizes] at h0 h1 h2
    by_cases hi0 : i = 0
    · subst hi0
      simp at h0 h2
      omega
    · by_cases hi1 : i = 1
      · subst hi1
        simp at h0 h1
        omega
      · have hgt : ¬ (i ≤ 1) := by omega
        have hgt1 : ¬ (i + 1 ≤ 1) := by omega
        simp [hgt, hgt1] at h0 h1
        omega
  refine ⟨hok, hnspec, ?_⟩
  intro hiff
  exact hnspec (hiff.mp ⟨2, hok⟩)

/-- C8 amended: the poll loop terminates successfully iff the loop's counter
reaches the threshold 2, i.e. iff some poll i ≥ 1 and its predecessor both
read a size equal to the respective previous comparison value — where the
comparison value of poll 0 is the initial lastSize 0, so a first read of 0
already counts as unchanged; it returns an error for any failed read not
preceded by such a point; and with all reads succeeding and no such point it
runs forever (returns no result within any number of polls). -/
theorem c8_wait_characterization (sizes : Nat → Option Int) :
    ((∃ fuel, waitForFileClose sizes fuel = WaitResult.ok) ↔
      ∃ i, stabilizesAt sizes i) ∧
    (∀ k, sizes k = none → (∀ m, m < k → ¬ stabilizesAt sizes m) →
      ∀ fuel, k < fuel → waitForFileClose sizes fuel = WaitResult.err) ∧
    ((∀ j, (sizes j).isSome) → (∀ i, ¬ stabilizesAt sizes i) →
      ∀ fuel, waitForFileClose sizes fuel = WaitResult.running) := by
  refine ⟨⟨?_, ?_⟩, ?_, ?_⟩
  · rintro ⟨fuel, hfuel⟩
    obtain ⟨m, _, _, hm⟩ :=
      ((waitAuxMain sizes fuel 0 0 0 (waitInv_init sizes)).1).mp hfuel
    exact ⟨m, hm⟩
  · rintro ⟨i, hi⟩
    exact ⟨i + 1, ((waitAuxMain sizes (i + 1) 0 0 0 (waitInv_init sizes)).1).mpr
      ⟨i, by omega, by omega, hi⟩⟩
  · intro k hk hnm fuel hfuel
    exact ((waitAuxMain sizes fuel 0 0 0 (waitInv_init sizes)).2).mpr
      ⟨k, by omega, by omega, hk, fun m _ hm => hnm m hm⟩
  · intro hjs hns fuel
    obtain ⟨hok, herr⟩ := waitAuxMain sizes fuel 0 0 0 (waitInv_init sizes)
    cases hval : waitForFileClose sizes fuel with
    | ok =>
      obtain ⟨m, _, _, hm⟩ := hok.mp hval
      exact absurd hm (hns m)
    | err =>
      obtain ⟨k, _, _, hk, _⟩ := herr.mp hval
      have hks := hjs k
      rw [hk] at hks
      exact Bool.noConfusion hks
    | running => rfl

/-- C8 witness: the characterization applied to a constant-size file (ok), an
immediately failing read (err), and an ever-growing file (running). -/
theorem c8_wait_characterization_witness :
    (∃ fuel, waitForFileClose (fun _ => some 5) fuel = WaitResult.ok) ∧
    waitForFileClose (fun i => if i = 0 then none else some 0) 1 =
      WaitResult.err ∧
    waitForFileClose (fun i => some (i : Int)) 3 = WaitResult.running := by
  refine ⟨?_, ?_, ?_⟩
  · refine (c8_wait_characterization (fun _ => some 5)).1.mpr ⟨2, ?_⟩
    exact ⟨by omega, fun j _ => rfl, ⟨5, rfl, rfl⟩, ⟨5, rfl, rfl⟩⟩
  · exact (c8_wait_characterization (fun i => if i = 0 then none else some 0)).2.1
      0 rfl (fun m hm => absurd hm (Nat.not_lt_zero m)) 1 (by omega)
  · refine (c8_wait_characterization (fun i => some (i : Int))).2.2
      (fun j => rfl) ?_ 3
    rintro i ⟨h1, _, hup, _⟩
    obtain ⟨v, hv, hpv⟩ := hup
    obtain ⟨j, rfl⟩ : ∃ j, i = j + 1 := ⟨i - 1, by omega⟩
    simp only [pollValue] at hpv
    injection hv with hv
    injection hpv with hpv
    omega

